import Mathlib

/-!
Verification of the core categorization pipeline of the `expences`
expense-tracker repository: the CSV-row Normalizer (`src/lib/parser.ts`,
`parseBankCSV`), the RuleMatcher (`src/lib/matcher.ts`, `applyMappings`),
the IntegrityManager (`deleteCategory` in `src/lib/db.ts`), the
BatchRecomputer (`handleReapplyRules` in `src/pages/Categories.tsx`),
import-time categorization (`handleFileSelect` in `src/pages/Import.tsx`),
manual resolution (`updateCategory` in `src/pages/Transactions.tsx`) and
rule import (`handleImportRules` in `src/pages/Categories.tsx`).

The TypeScript sources are embedded shallowly:
* JavaScript strings become `String`; `undefined`-or-absent string fields
  become `Option String` (or `""` where the source only ever distinguishes
  values by truthiness, as in CSV cell access, where both a missing cell
  and an empty cell are falsy).
* JavaScript numbers become `Option ℚ`, with `none` playing the role of
  `NaN` (the only non-finite value the parser can produce).
* Array mutation in `forEach` loops becomes `List.foldl`, and the
  insertion-ordered `Set` used by the matcher becomes a duplicate-free
  `List` grown at the tail exactly as `Set.add` grows insertion order.
* JavaScript truthiness tests on optional strings / arrays are modelled
  by explicit `truthyOptStr` / `truthyConflicts` functions.
-/

/-- JS truthiness of a `string | undefined` value: `undefined` and `""`
are falsy, every other string is truthy. -/
def truthyOptStr : Option String → Bool
  | none => false
  | some s => !(s == "")

/-- JS truthiness of an `string[] | undefined` value: any array (even the
empty one) is truthy, `undefined` is falsy. -/
def truthyConflicts : Option (List String) → Bool
  | none => false
  | some _ => true

/-- `tx.conflicts && tx.conflicts.length > 0` from `Categories.tsx`. -/
def conflictsNonempty : Option (List String) → Bool
  | none => false
  | some cs => cs.length > 0

/-- Does `hay` start with `needle`? (helper for JS `String.includes`). -/
def charsStartsWith : List Char → List Char → Bool
  | _, [] => true
  | [], _ :: _ => false
  | a :: as, b :: bs => a == b && charsStartsWith as bs

/-- Does `hay` contain `needle` as a contiguous run? (helper). -/
def charsContains (needle : List Char) : List Char → Bool
  | [] => charsStartsWith [] needle
  | h :: t => charsStartsWith (h :: t) needle || charsContains needle t

/-- JS `hay.includes(needle)`: substring containment (true for `""`). -/
def strIncludes (hay needle : String) : Bool :=
  charsContains needle.toList hay.toList

/-- JS `s.toLowerCase()` (character-wise lower-casing; the inputs the
pipeline handles are ASCII, so ASCII lower-casing models it). -/
def jsToLower (s : String) : String :=
  ⟨s.data.map Char.toLower⟩

/-- JS `s.trim()`: strip whitespace from both ends. -/
def jsTrim (s : String) : String :=
  ⟨((s.data.dropWhile Char.isWhitespace).reverse.dropWhile
      Char.isWhitespace).reverse⟩

/-- `Transaction` record from `src/lib/db.ts`.  `amount` is `Option ℚ`
(`none` = `NaN`); `type` carries the raw `Debit/Credit` cell (`"D"` or
`"C"` for well-formed input, but the source merely casts the string);
`originalRow` keeps the verbatim source cells. -/
structure Transaction where
  id : String
  date : String
  amount : Option ℚ
  type : String
  beneficiary : String
  purpose : String
  categoryId : Option String
  conflicts : Option (List String)
  originalRow : List (String × String)
deriving DecidableEq

/-- `Category` record from `src/lib/db.ts`. -/
structure Category where
  id : String
  name : String
  color : String
  budget : ℚ
deriving DecidableEq

/-- `Mapping` (rule) record from `src/lib/db.ts`. -/
structure Mapping where
  id : String
  pattern : String
  categoryId : String
deriving DecidableEq

/-- Result of `applyMappings`: the source returns `{ match?: string,
conflicts?: string[] }`; `match` is a reserved word in Lean so the field
is called `matched`. -/
structure MatchResult where
  matched : Option String
  conflicts : Option (List String)
deriving DecidableEq

/-- `(transaction.beneficiary + ' ' + transaction.purpose).toLowerCase()`
from `src/lib/matcher.ts`. -/
def relevantText (t : Transaction) : String :=
  jsToLower (t.beneficiary ++ " " ++ t.purpose)

/-- `ignoredAccounts.map(acc => acc.toLowerCase().trim()).filter(acc =>
acc.length > 0)` from `src/lib/matcher.ts`. -/
def normalizeIgnored (ignoredAccounts : List String) : List String :=
  (ignoredAccounts.map (fun acc => jsTrim (jsToLower acc))).filter
    (fun acc => acc.length > 0)

/-- One iteration of the matcher's rule loop body: substring test of the
lower-cased pattern against lower-cased beneficiary or purpose. -/
def mappingMatches (t : Transaction) (m : Mapping) : Bool :=
  strIncludes (jsToLower t.beneficiary) (jsToLower m.pattern) ||
    strIncludes (jsToLower t.purpose) (jsToLower m.pattern)

/-- `matches.add(x)` on the insertion-ordered JS `Set`, represented as a
duplicate-free list. -/
def setAdd (l : List String) (x : String) : List String :=
  if x ∈ l then l else l ++ [x]

/-- The `for (const mapping of mappings)` loop of `applyMappings`,
accumulating the distinct matched category ids in insertion order. -/
def collectMatches (t : Transaction) (mappings : List Mapping) : List String :=
  mappings.foldl
    (fun acc m => if mappingMatches t m then setAdd acc m.categoryId else acc)
    []

/-- `applyMappings(transaction, mappings, ignoredAccounts)` from
`src/lib/matcher.ts`: internal-transfer check first (returning the
reserved `INTERNAL` category), then distinct-match resolution. -/
def applyMappings (t : Transaction) (mappings : List Mapping)
    (ignoredAccounts : List String) : MatchResult :=
  let relevant := relevantText t
  let normalizedIgnored := normalizeIgnored ignoredAccounts
  let isInternal := normalizedIgnored.any (fun acc => strIncludes relevant acc)
  if isInternal then ⟨some "INTERNAL", none⟩
  else
    let ms := collectMatches t mappings
    if ms.length = 1 then ⟨ms.head?, none⟩
    else if ms.length > 1 then ⟨none, some ms⟩
    else ⟨none, none⟩

/-!
## Normalizer (`src/lib/parser.ts`, `parseBankCSV`)

The CSV lexing itself is done by the PapaParse library (`header: true`,
`skipEmptyLines: true`); the repository's own code is the per-row
callback, so the embedding takes the list of already-split header-keyed
rows as input.  A `Row` holds the cells the callback reads; a missing
cell and an empty cell are indistinguishable to the source (it only ever
tests them for truthiness or concatenates them after `|| ''`), so both
are modelled as `""`.  `Date.now()` is passed in as the `now` argument.
-/

/-- One parsed CSV record, keyed by the header names used in
`parseBankCSV`. -/
structure Row where
  valueDate : String
  amount : String
  debitCredit : String
  transactionNo : String
  beneficiaryPayer : String
  beneficiaryAccount : String
  purposeOfPayment : String
deriving DecidableEq

/-- The verbatim `originalRow` cells retained on the transaction. -/
def rowPairs (r : Row) : List (String × String) :=
  [("Value date", r.valueDate), ("Amount", r.amount),
   ("Debit/Credit", r.debitCredit), ("Transaction No.", r.transactionNo),
   ("Beneficiary/ Payer", r.beneficiaryPayer),
   ("Beneficiary/payer's account number", r.beneficiaryAccount),
   ("Purpose of payment", r.purposeOfPayment)]

/-- Leading digits of a character list, with the rest. -/
def takeDigits : List Char → List Char × List Char
  | [] => ([], [])
  | c :: cs =>
    if c.isDigit then
      let p := takeDigits cs
      (c :: p.1, p.2)
    else ([], c :: cs)

/-- Numeric value of a digit run. -/
def digitsToNat (ds : List Char) : ℕ :=
  ds.foldl (fun a c => a * 10 + (c.toNat - 48)) 0

/-- The discrete part of JS `parseFloat`: skip leading whitespace, read
an optional sign, the longest prefix of digits, an optional fraction and
an optional exponent; trailing garbage is ignored; `none` (`NaN`) when
no digit could be read.  Returns
`(negative, integer part, fraction part, fraction length, exponent)`. -/
def floatParts (s : String) : Option (Bool × ℕ × ℕ × ℕ × ℤ) :=
  let cs0 := s.toList.dropWhile (fun c => c.isWhitespace)
  let neg : Bool := match cs0 with
    | '-' :: _ => true
    | _ => false
  let cs1 := match cs0 with
    | '-' :: t => t
    | '+' :: t => t
    | _ => cs0
  let ip := takeDigits cs1
  let fp := match ip.2 with
    | '.' :: t => takeDigits t
    | rest => ([], rest)
  if ip.1.isEmpty && fp.1.isEmpty then none
  else
    let expPart : ℤ := match fp.2 with
      | 'e' :: '-' :: t =>
        let ed := (takeDigits t).1
        if ed.isEmpty then 0 else -(digitsToNat ed : ℤ)
      | 'e' :: '+' :: t =>
        let ed := (takeDigits t).1
        if ed.isEmpty then 0 else (digitsToNat ed : ℤ)
      | 'e' :: t =>
        let ed := (takeDigits t).1
        if ed.isEmpty then 0 else (digitsToNat ed : ℤ)
      | 'E' :: '-' :: t =>
        let ed := (takeDigits t).1
        if ed.isEmpty then 0 else -(digitsToNat ed : ℤ)
      | 'E' :: '+' :: t =>
        let ed := (takeDigits t).1
        if ed.isEmpty then 0 else (digitsToNat ed : ℤ)
      | 'E' :: t =>
        let ed := (takeDigits t).1
        if ed.isEmpty then 0 else (digitsToNat ed : ℤ)
      | _ => 0
    some (neg, digitsToNat ip.1, digitsToNat fp.1, fp.1.length, expPart)

/-- JS `parseFloat`: the number denoted by the parsed parts; `none`
models `NaN`.  Exact binary floating point rounding is not modelled:
values are exact rationals. -/
def parseJSFloat (s : String) : Option ℚ :=
  match floatParts s with
  | none => none
  | some (neg, ipart, fpart, flen, ex) =>
    some ((if neg then (-1 : ℚ) else 1) *
      ((ipart : ℚ) + (fpart : ℚ) / (10 : ℚ) ^ flen) * (10 : ℚ) ^ ex)

/-- Gregorian leap year. -/
def isLeap (y : ℕ) : Bool :=
  (y % 4 == 0 && y % 100 != 0) || y % 400 == 0

/-- Days in a month. -/
def daysInMonth (y m : ℕ) : ℕ :=
  if m = 2 then (if isLeap y then 29 else 28)
  else if m = 4 ∨ m = 6 ∨ m = 9 ∨ m = 11 then 30
  else 31

/-- Is a character list a non-empty run of decimal digits? -/
def allDigits (s : List Char) : Bool :=
  !s.isEmpty && s.all Char.isDigit

/-- Split a character list on the `'.'` separator (the list analogue of
`s.split('.')` for a one-character separator). -/
def splitDot (l : List Char) : List (List Char) :=
  l.foldr
    (fun c acc =>
      if c = '.' then [] :: acc
      else
        match acc with
        | [] => [[c]]
        | h :: t => (c :: h) :: t)
    [[]]

/-- date-fns `parse(dateStr, 'dd.MM.yyyy', …)` combined with `isValid`:
three dot-separated numeric components (`dd`/`MM` read at most two
digits, `yyyy` at most four), month and day-of-month range checked
against the Gregorian calendar.  Returns `(day, month, year)`. -/
def parseDate_ddMMyyyy (s : String) : Option (ℕ × ℕ × ℕ) :=
  match splitDot s.toList with
  | [d, m, y] =>
    if allDigits d && allDigits m && allDigits y &&
        d.length ≤ 2 && m.length ≤ 2 && y.length ≤ 4 then
      let dn := digitsToNat d
      let mn := digitsToNat m
      let yn := digitsToNat y
      if 1 ≤ mn && mn ≤ 12 && 1 ≤ dn && dn ≤ daysInMonth yn mn then
        some (dn, mn, yn)
      else none
    else none
  | _ => none

/-- Zero-padding to two digits (`format(parsedDate, 'yyyy-MM-dd')`). -/
def pad2 (n : ℕ) : String :=
  if n < 10 then "0" ++ toString n else toString n

/-- Zero-padding to four digits. -/
def pad4 (n : ℕ) : String :=
  if n < 10 then "000" ++ toString n
  else if n < 100 then "00" ++ toString n
  else if n < 1000 then "0" ++ toString n
  else toString n

/-- `format(parsedDate, 'yyyy-MM-dd')` on a parsed `(day, month, year)`. -/
def isoDate (dmy : ℕ × ℕ × ℕ) : String :=
  pad4 dmy.2.2 ++ "-" ++ pad2 dmy.2.1 ++ "-" ++ pad2 dmy.1

/-- Error entry pushed by the row callback's `catch` block. -/
structure ParseError where
  row : Row
  msg : String
deriving DecidableEq

/-- Outcome of the row callback for a single row: silently skipped,
a produced transaction, or an error entry. -/
inductive RowOutcome where
  | skip : RowOutcome
  | tx : Transaction → RowOutcome
  | err : ParseError → RowOutcome
deriving DecidableEq

/-- The body of the `results.data.forEach` callback in `parseBankCSV`:
rows missing their date or amount cell are skipped; an unparseable date
throws, which the `catch` turns into an error entry; otherwise a
canonical transaction is built (id from `Transaction No.` or synthesized
from row index and wall clock; beneficiary name with the account number
appended in parentheses when present). -/
def processRow (now idx : ℕ) (r : Row) : RowOutcome :=
  if r.valueDate = "" ∨ r.amount = "" then .skip
  else
    match parseDate_ddMMyyyy r.valueDate with
    | none => .err ⟨r, "Invalid date format: " ++ r.valueDate⟩
    | some dmy =>
      .tx
        { id := if r.transactionNo ≠ "" then r.transactionNo
                else "gen-" ++ toString idx ++ "-" ++ toString now
          date := isoDate dmy
          amount := parseJSFloat r.amount
          type := r.debitCredit
          beneficiary := r.beneficiaryPayer ++
            (if r.beneficiaryAccount ≠ "" then
              " (" ++ r.beneficiaryAccount ++ ")"
             else "")
          purpose := r.purposeOfPayment
          categoryId := none
          conflicts := none
          originalRow := rowPairs r }

/-- `ParseResult` from `src/lib/parser.ts`. -/
structure ParseResult where
  data : List Transaction
  errors : List ParseError
deriving DecidableEq

/-- Folding one indexed row into the accumulated parse result. -/
def parseStep (now : ℕ) (acc : ParseResult) (p : ℕ × Row) : ParseResult :=
  match processRow now p.1 p.2 with
  | .skip => acc
  | .tx t => ⟨acc.data ++ [t], acc.errors⟩
  | .err e => ⟨acc.data, acc.errors ++ [e]⟩

/-- `parseBankCSV`: the `forEach` over all parsed rows with their
indices. -/
def parseBankCSV (now : ℕ) (rows : List Row) : ParseResult :=
  rows.enum.foldl (parseStep now) ⟨[], []⟩

/-!
## Core operations on transactions and the store
-/

/-- The per-transaction categorization step of `handleFileSelect` in
`src/pages/Import.tsx`: freshly parsed transactions without a (truthy)
category get the matcher result, or the `IN` fallback for credits. -/
def importCategorize (maps : List Mapping) (ignored : List String)
    (tx : Transaction) : Transaction :=
  if truthyOptStr tx.categoryId then tx
  else
    let r := applyMappings tx maps ignored
    if truthyOptStr r.matched then { tx with categoryId := r.matched }
    else if truthyConflicts r.conflicts then { tx with conflicts := r.conflicts }
    else if tx.type = "C" then { tx with categoryId := some "IN" }
    else tx

/-- The whole import-time categorization pass: parse, then categorize
each produced transaction (`handleFileSelect`). -/
def importFlow (maps : List Mapping) (ignored : List String) (now : ℕ)
    (rows : List Row) : List Transaction :=
  (parseBankCSV now rows).data.map (importCategorize maps ignored)

/-- The per-transaction body of the `txs.forEach` loop in
`handleReapplyRules` (`src/pages/Categories.tsx`): strict overwrite of
the stored state by the recomputed matcher result, returning the updated
transaction and the `changed` flag. -/
def reapplyOne (maps : List Mapping) (ignored : List String)
    (tx : Transaction) : Transaction × Bool :=
  let r := applyMappings tx maps ignored
  if truthyOptStr r.matched then
    if tx.categoryId ≠ r.matched ∨ conflictsNonempty tx.conflicts then
      ({ tx with categoryId := r.matched, conflicts := none }, true)
    else (tx, false)
  else if truthyConflicts r.conflicts then
    if truthyOptStr tx.categoryId ∨ tx.conflicts ≠ r.conflicts then
      ({ tx with categoryId := none, conflicts := r.conflicts }, true)
    else (tx, false)
  else if tx.type = "C" then
    if tx.categoryId ≠ some "IN" then
      ({ tx with categoryId := some "IN", conflicts := none }, true)
    else (tx, false)
  else
    if truthyOptStr tx.categoryId ∨ truthyConflicts tx.conflicts then
      ({ tx with categoryId := none, conflicts := none }, true)
    else (tx, false)

/-- `handleReapplyRules`: run `reapplyOne` over every stored transaction,
counting the changed ones (`updatedCount`). -/
def handleReapplyRules (txs : List Transaction) (maps : List Mapping)
    (ignored : List String) : List Transaction × ℕ :=
  txs.foldl
    (fun acc tx =>
      let p := reapplyOne maps ignored tx
      (acc.1 ++ [p.1], if p.2 then acc.2 + 1 else acc.2))
    ([], 0)

/-- `updateCategory` from `src/pages/Transactions.tsx` (manual
resolution), restricted to the found transaction: if the picked category
differs from the stored one, set it and drop any conflicts. -/
def updateCategory (tx : Transaction) (newCategoryId : String) : Transaction :=
  if tx.categoryId ≠ some newCategoryId then
    { tx with categoryId := some newCategoryId, conflicts := none }
  else tx

/-- The three object stores touched by the cascade, as one record. -/
structure DBState where
  categories : List Category
  transactions : List Transaction
  mappings : List Mapping
deriving DecidableEq

/-- The per-transaction update of `deleteCategory`'s cursor over the
`by-category` index: exactly the transactions whose `categoryId` equals
the deleted id get the field removed. -/
def deleteCategoryTx (id : String) (t : Transaction) : Transaction :=
  if t.categoryId = some id then { t with categoryId := none } else t

/-- `deleteCategory(id)` from `src/lib/db.ts`: inside one IndexedDB
write transaction, delete the category record, unset `categoryId` on
every transaction holding it, and delete every mapping referencing it. -/
def deleteCategory (s : DBState) (id : String) : DBState :=
  { categories := s.categories.filter (fun c => c.id ≠ id)
    transactions := s.transactions.map (deleteCategoryTx id)
    mappings := s.mappings.filter (fun m => m.categoryId ≠ id) }

/-- One entry of the rule-import JSON payload (a `{pattern, categoryId}`
object; a missing or non-string field is modelled as `""`, which the
source skips by the same falsy test). -/
structure ImportedRule where
  pattern : String
  categoryId : String
deriving DecidableEq

/-- The `for (const rule of imported)` loop of `handleImportRules`
(`src/pages/Categories.tsx`): skip rules with falsy fields, skip
patterns already present in the pre-import pattern set, add the rest
with freshly generated ids (the `added` counter feeds the id). -/
def importRulesGo (currentPatterns : List String) (now added : ℕ) :
    List ImportedRule → List Mapping
  | [] => []
  | rule :: rest =>
    if rule.pattern = "" ∨ rule.categoryId = "" then
      importRulesGo currentPatterns now added rest
    else if rule.pattern ∈ currentPatterns then
      importRulesGo currentPatterns now added rest
    else
      { id := "map-imp-" ++ toString now ++ "-" ++ toString added
        pattern := rule.pattern
        categoryId := rule.categoryId } ::
        importRulesGo currentPatterns now (added + 1) rest

/-- `handleImportRules` on the mapping store: merge by exact pattern
against the pattern set computed before the loop. -/
def handleImportRules (maps : List Mapping) (imported : List ImportedRule)
    (now : ℕ) : List Mapping :=
  maps ++ importRulesGo (maps.map (fun m => m.pattern)) now 0 imported

/-!
## Data-model invariants (spec §3)
-/

/-- Exclusivity: not both a non-empty `categoryId` and a non-empty
`conflicts` set. -/
def exclusiveB (tx : Transaction) : Bool :=
  !(truthyOptStr tx.categoryId && conflictsNonempty tx.conflicts)

/-- Invariant 1: every transaction's `categoryId`, if set, names an
existing category. -/
def invariant1B (cats : List Category) (txs : List Transaction) : Bool :=
  txs.all (fun t =>
    match t.categoryId with
    | none => true
    | some c => cats.any (fun cat => cat.id = c))

/-- Invariant 2: every mapping's `categoryId` names an existing
category. -/
def invariant2B (cats : List Category) (maps : List Mapping) : Bool :=
  maps.all (fun m => cats.any (fun cat => cat.id = m.categoryId))

/-- Equality of two optional conflict lists as `sets` of category ids
(mutual containment), the comparison the spec prescribes for conflict
sets. -/
def conflictsSameElemsB : Option (List String) → Option (List String) → Bool
  | none, none => true
  | some l₁, some l₂ =>
    l₁.all (fun a => l₂.contains a) && l₂.all (fun a => l₁.contains a)
  | _, _ => false

/-- Field-by-field equality of two transaction states where the conflict
lists are compared as sets (order-blind): the comparison claimed for the
`changed` count of the batch recompute. -/
def stateEqUpToConflictOrder (t₁ t₂ : Transaction) : Bool :=
  t₁.id = t₂.id && t₁.date = t₂.date && t₁.amount = t₂.amount &&
    t₁.type = t₂.type && t₁.beneficiary = t₂.beneficiary &&
    t₁.purpose = t₂.purpose && t₁.categoryId = t₂.categoryId &&
    conflictsSameElemsB t₁.conflicts t₂.conflicts &&
    t₁.originalRow = t₂.originalRow

/-- The transaction produced by one indexed row, if any. -/
def rowOutTx (now : ℕ) (p : ℕ × Row) : Option Transaction :=
  match processRow now p.1 p.2 with
  | .tx t => some t
  | _ => none

/-- The error entry produced by one indexed row, if any. -/
def rowOutErr (now : ℕ) (p : ℕ × Row) : Option ParseError :=
  match processRow now p.1 p.2 with
  | .err e => some e
  | _ => none

/-!
## Helper lemmas
-/

lemma parse_foldl (now : ℕ) (l : List (ℕ × Row)) (acc : ParseResult) :
    l.foldl (parseStep now) acc =
      ⟨acc.data ++ l.filterMap (rowOutTx now),
       acc.errors ++ l.filterMap (rowOutErr now)⟩ := by
  induction l generalizing acc with
  | nil => simp
  | cons p t ih =>
    simp only [List.foldl_cons, List.filterMap_cons, ih]
    cases hp : processRow now p.1 p.2 <;>
      simp [parseStep, rowOutTx, rowOutErr, hp]

/-- `parseBankCSV` is a per-row `filterMap`: rows are processed
independently and contribute in input order. -/
lemma parseBankCSV_eq (now : ℕ) (rows : List Row) :
    parseBankCSV now rows =
      ⟨rows.enum.filterMap (rowOutTx now),
       rows.enum.filterMap (rowOutErr now)⟩ := by
  simpa [parseBankCSV] using parse_foldl now rows.enum ⟨[], []⟩

/-- A produced transaction carries the parse of its row's cells; in
particular it starts uncategorized and conflict-free. -/
lemma processRow_tx_fields (now idx : ℕ) (r : Row) (t : Transaction)
    (h : processRow now idx r = .tx t) :
    t.categoryId = none ∧ t.conflicts = none ∧
      t.amount = parseJSFloat r.amount := by
  unfold processRow at h
  split at h
  · cases h
  · split at h
    · cases h
    · cases h
      exact ⟨rfl, rfl, rfl⟩

/-- Every transaction the Normalizer emits starts uncategorized and
conflict-free. -/
lemma rowOutTx_fresh (now : ℕ) (p : ℕ × Row) (t : Transaction)
    (h : rowOutTx now p = some t) :
    t.categoryId = none ∧ t.conflicts = none := by
  cases hp : processRow now p.1 p.2 with
  | skip => simp [rowOutTx, hp] at h
  | err e => simp [rowOutTx, hp] at h
  | tx t0 =>
    simp only [rowOutTx, hp, Option.some.injEq] at h
    subst h
    obtain ⟨h1, h2, _⟩ := processRow_tx_fields now p.1 p.2 t0 hp
    exact ⟨h1, h2⟩

lemma setAdd_mem (l : List String) (x a : String) :
    a ∈ setAdd l x ↔ a ∈ l ∨ a = x := by
  unfold setAdd
  split
  · rename_i hx
    constructor
    · exact Or.inl
    · rintro (h | rfl)
      · exact h
      · exact hx
  · simp

lemma setAdd_nodup (l : List String) (x : String) (h : l.Nodup) :
    (setAdd l x).Nodup := by
  unfold setAdd
  split
  · exact h
  · rename_i hx
    simpa [List.nodup_append] using ⟨h, hx⟩

lemma collect_foldl_mem (t : Transaction) (maps : List Mapping)
    (acc : List String) (a : String) :
    a ∈ maps.foldl
        (fun acc m =>
          if mappingMatches t m then setAdd acc m.categoryId else acc) acc ↔
      a ∈ acc ∨ ∃ m ∈ maps, mappingMatches t m = true ∧ m.categoryId = a := by
  induction maps generalizing acc with
  | nil => simp
  | cons m rest ih =>
    simp only [List.foldl_cons]
    by_cases hm : mappingMatches t m = true
    · rw [if_pos hm, ih, setAdd_mem]
      constructor
      · rintro ((h | rfl) | ⟨m', hm', hmt, rfl⟩)
        · exact Or.inl h
        · exact Or.inr ⟨m, by simp, hm, rfl⟩
        · exact Or.inr ⟨m', by simp [hm'], hmt, rfl⟩
      · rintro (h | ⟨m', hm', hmt, rfl⟩)
        · exact Or.inl (Or.inl h)
        · rcases List.mem_cons.mp hm' with rfl | hm'
          · exact Or.inl (Or.inr rfl)
          · exact Or.inr ⟨m', hm', hmt, rfl⟩
    · rw [if_neg hm, ih]
      constructor
      · rintro (h | ⟨m', hm', hmt, rfl⟩)
        · exact Or.inl h
        · exact Or.inr ⟨m', by simp [hm'], hmt, rfl⟩
      · rintro (h | ⟨m', hm', hmt, rfl⟩)
        · exact Or.inl h
        · rcases List.mem_cons.mp hm' with rfl | hm'
          · exact absurd hmt hm
          · exact Or.inr ⟨m', hm', hmt, rfl⟩

lemma collect_foldl_nodup (t : Transaction) (maps : List Mapping)
    (acc : List String) (h : acc.Nodup) :
    (maps.foldl
      (fun acc m =>
        if mappingMatches t m then setAdd acc m.categoryId else acc)
      acc).Nodup := by
  induction maps generalizing acc with
  | nil => exact h
  | cons m rest ih =>
    simp only [List.foldl_cons]
    split
    · exact ih _ (setAdd_nodup _ _ h)
    · exact ih _ h

lemma collectMatches_mem (t : Transaction) (maps : List Mapping) (a : String) :
    a ∈ collectMatches t maps ↔
      ∃ m ∈ maps, mappingMatches t m = true ∧ m.categoryId = a := by
  simpa [collectMatches] using collect_foldl_mem t maps [] a

lemma collectMatches_nodup (t : Transaction) (maps : List Mapping) :
    (collectMatches t maps).Nodup :=
  collect_foldl_nodup t maps [] List.nodup_nil

/-- Permuting the mapping list permutes the accumulated distinct match
list. -/
lemma collectMatches_perm (t : Transaction) (maps₁ maps₂ : List Mapping)
    (h : maps₁.Perm maps₂) :
    (collectMatches t maps₁).Perm (collectMatches t maps₂) := by
  rw [List.perm_ext_iff_of_nodup (collectMatches_nodup t maps₁)
    (collectMatches_nodup t maps₂)]
  intro a
  rw [collectMatches_mem, collectMatches_mem]
  constructor
  · rintro ⟨m, hm, hmt, rfl⟩
    exact ⟨m, h.mem_iff.mp hm, hmt, rfl⟩
  · rintro ⟨m, hm, hmt, rfl⟩
    exact ⟨m, h.mem_iff.mpr hm, hmt, rfl⟩

lemma handleReapplyRules_foldl (maps : List Mapping) (ignored : List String)
    (txs : List Transaction) (acc : List Transaction × ℕ) :
    txs.foldl
        (fun acc tx =>
          let p := reapplyOne maps ignored tx
          (acc.1 ++ [p.1], if p.2 then acc.2 + 1 else acc.2)) acc =
      (acc.1 ++ txs.map (fun tx => (reapplyOne maps ignored tx).1),
       acc.2 + txs.countP (fun tx => (reapplyOne maps ignored tx).2)) := by
  induction txs generalizing acc with
  | nil => simp
  | cons tx rest ih =>
    simp only [List.foldl_cons, List.map_cons, List.countP_cons, ih]
    cases hc : (reapplyOne maps ignored tx).2 <;>
      simp [hc, Nat.add_comm, Nat.add_assoc, Nat.add_left_comm]

/-- `applyMappings` only sees the ignored-account list through its
normalization. -/
lemma applyMappings_congr_ignored (t : Transaction) (maps : List Mapping)
    (ign₁ ign₂ : List String)
    (h : normalizeIgnored ign₁ = normalizeIgnored ign₂) :
    applyMappings t maps ign₁ = applyMappings t maps ign₂ := by
  unfold applyMappings
  rw [h]

/-!
## The claims
-/

/-- C10: ignored-account identifiers that are empty or whitespace-only
are discarded before the internal-transfer check, so calling
`RuleMatcher.match` with an ignored list containing only blank strings
yields the same result as calling it with an empty ignored list (and a
blank identifier never causes an internal classification). -/
theorem claim10_blank_ignored_discarded (tx : Transaction)
    (maps : List Mapping) (ignored : List String)
    (h : ∀ acc ∈ ignored, jsTrim (jsToLower acc) = "") :
    applyMappings tx maps ignored = applyMappings tx maps [] := by
  have hn : normalizeIgnored ignored = [] := by
    unfold normalizeIgnored
    rw [List.filter_eq_nil_iff]
    intro a ha
    obtain ⟨x, hx, rfl⟩ := List.mem_map.mp ha
    rw [h x hx]
    decide
  exact applyMappings_congr_ignored tx maps ignored [] (by rw [hn]; rfl)

/-- C10 witness: an ignored list of one empty and one whitespace-only
identifier behaves exactly like the empty ignored list. -/
theorem claim10_witness :
    applyMappings
        ⟨"t1", "2024-02-01", some 1, "D", "RIMI", "food", none, none, []⟩
        [⟨"m1", "RIMI", "cat-1"⟩] ["", "   "] =
      applyMappings
        ⟨"t1", "2024-02-01", some 1, "D", "RIMI", "food", none, none, []⟩
        [⟨"m1", "RIMI", "cat-1"⟩] [] :=
  claim10_blank_ignored_discarded _ _ ["", "   "] (by decide)

/-- C4: whenever the lower-cased concatenated beneficiary-and-purpose
text contains a configured account identifier (lower-cased and trimmed,
and surviving the blank filter), `RuleMatcher.match` returns the
reserved internal category regardless of the mapping list, and the
result is never a conflict. -/
theorem claim4_internal_priority (tx : Transaction) (maps : List Mapping)
    (ignored : List String) (acc : String) (hmem : acc ∈ ignored)
    (hne : (jsTrim (jsToLower acc)).length > 0)
    (hinc : strIncludes (relevantText tx) (jsTrim (jsToLower acc)) = true) :
    applyMappings tx maps ignored = ⟨some "INTERNAL", none⟩ := by
  have hmem' : jsTrim (jsToLower acc) ∈ normalizeIgnored ignored := by
    unfold normalizeIgnored
    exact List.mem_filter.mpr
      ⟨List.mem_map.mpr ⟨acc, hmem, rfl⟩, by simpa using hne⟩
  have hany : (normalizeIgnored ignored).any
      (fun a => strIncludes (relevantText tx) a) = true :=
    List.any_eq_true.mpr ⟨_, hmem', hinc⟩
  simp only [applyMappings, hany, if_true]

/-- C4 witness: with ignored identifier `"LV11"` and the mapping
`{pattern: "RIMI", categoryId: "cat-1"}`, a transaction whose
beneficiary account number is `LV11` (appended in parentheses by the
Normalizer) and whose purpose contains `RIMI` resolves to the internal
category, not `cat-1`, and carries no conflict set. -/
theorem claim4_witness :
    applyMappings
        ⟨"ID123", "2024-02-01", none, "D", " (LV11)",
          "Karte: ... Pirkums - RIMI MHM ADAZI", none, none, []⟩
        [⟨"m1", "RIMI", "cat-1"⟩] ["LV11"] = ⟨some "INTERNAL", none⟩ :=
  claim4_internal_priority _ _ ["LV11"] "LV11" (by decide) (by decide)
    (by decide)

/-- C2: after `deleteCategory(X)` (one atomic function of the store
state in this model, mirroring the single IndexedDB write transaction),
the category `X` is removed, no remaining transaction references `X`
(such transactions merely lose their `categoryId`, nothing re-resolves
them), no mapping references `X`, and data-model invariants 1 and 2 are
preserved. -/
theorem claim2_delete_cascade (s : DBState) (id : String) :
    (∀ c ∈ (deleteCategory s id).categories, c.id ≠ id) ∧
    (∀ t ∈ (deleteCategory s id).transactions, t.categoryId ≠ some id) ∧
    (∀ m ∈ (deleteCategory s id).mappings, m.categoryId ≠ id) ∧
    (∀ t ∈ s.transactions, t.categoryId = some id →
      deleteCategoryTx id t = { t with categoryId := none }) ∧
    (invariant1B s.categories s.transactions = true →
      invariant1B (deleteCategory s id).categories
        (deleteCategory s id).transactions = true) ∧
    (invariant2B s.categories s.mappings = true →
      invariant2B (deleteCategory s id).categories
        (deleteCategory s id).mappings = true) := by
  refine ⟨?_, ?_, ?_, ?_, ?_, ?_⟩
  · intro c hc
    have := (List.mem_filter.mp hc).2
    simpa using this
  · intro t ht
    obtain ⟨t0, _, rfl⟩ := List.mem_map.mp ht
    unfold deleteCategoryTx
    split
    · simp
    · assumption
  · intro m hm
    have := (List.mem_filter.mp hm).2
    simpa using this
  · intro t _ ht0
    unfold deleteCategoryTx
    rw [if_pos ht0]
  · intro h1
    rw [invariant1B] at h1
    rw [invariant1B, List.all_eq_true]
    intro t' ht'
    obtain ⟨t0, ht0, rfl⟩ := List.mem_map.mp ht'
    have hall := List.all_eq_true.mp h1 t0 ht0
    by_cases hid : t0.categoryId = some id
    · simp [deleteCategoryTx, hid]
    · have heq : deleteCategoryTx id t0 = t0 := by
        rw [deleteCategoryTx, if_neg hid]
      rw [heq]
      cases hc : t0.categoryId with
      | none => simp [hc]
      | some c =>
        rw [hc] at hall
        simp only [hc]
        obtain ⟨cat, hcat, hcatid⟩ := List.any_eq_true.mp hall
        refine List.any_eq_true.mpr ⟨cat, List.mem_filter.mpr ⟨hcat, ?_⟩, hcatid⟩
        have hcne : c ≠ id := fun h => hid (hc.trans (by rw [h]))
        simp only [decide_eq_true_eq] at hcatid ⊢
        rw [hcatid]
        exact hcne
  · intro h2
    rw [invariant2B] at h2
    rw [invariant2B, List.all_eq_true]
    intro m hm
    obtain ⟨hm0, hmne⟩ := List.mem_filter.mp hm
    have hall := List.all_eq_true.mp h2 m hm0
    obtain ⟨cat, hcat, hcatid⟩ := List.any_eq_true.mp hall
    refine List.any_eq_true.mpr ⟨cat, List.mem_filter.mpr ⟨hcat, ?_⟩, hcatid⟩
    simp only [decide_eq_true_eq] at hcatid hmne ⊢
    rw [hcatid]
    exact hmne

/-- C2 witness: a concrete store containing the category `cat-1`, one
transaction assigned to it and one mapping referencing it, satisfying
invariants 1 and 2; after `deleteCategory "cat-1"` nothing references
`cat-1` and both invariants still hold. -/
theorem claim2_witness :
    invariant1B [⟨"cat-1", "Food", "#f00", 0⟩, ⟨"IN", "Income", "#0f0", 0⟩]
        [⟨"t1", "2024-01-01", none, "D", "a", "b", some "cat-1", none, []⟩] =
      true ∧
    invariant2B [⟨"cat-1", "Food", "#f00", 0⟩, ⟨"IN", "Income", "#0f0", 0⟩]
        [⟨"m1", "RIMI", "cat-1"⟩] = true ∧
    (∀ t ∈ (deleteCategory
        ⟨[⟨"cat-1", "Food", "#f00", 0⟩, ⟨"IN", "Income", "#0f0", 0⟩],
         [⟨"t1", "2024-01-01", none, "D", "a", "b", some "cat-1", none, []⟩],
         [⟨"m1", "RIMI", "cat-1"⟩]⟩ "cat-1").transactions,
      t.categoryId ≠ some "cat-1") ∧
    invariant1B (deleteCategory
        ⟨[⟨"cat-1", "Food", "#f00", 0⟩, ⟨"IN", "Income", "#0f0", 0⟩],
         [⟨"t1", "2024-01-01", none, "D", "a", "b", some "cat-1", none, []⟩],
         [⟨"m1", "RIMI", "cat-1"⟩]⟩ "cat-1").categories
      (deleteCategory
        ⟨[⟨"cat-1", "Food", "#f00", 0⟩, ⟨"IN", "Income", "#0f0", 0⟩],
         [⟨"t1", "2024-01-01", none, "D", "a", "b", some "cat-1", none, []⟩],
         [⟨"m1", "RIMI", "cat-1"⟩]⟩ "cat-1").transactions = true ∧
    invariant2B (deleteCategory
        ⟨[⟨"cat-1", "Food", "#f00", 0⟩, ⟨"IN", "Income", "#0f0", 0⟩],
         [⟨"t1", "2024-01-01", none, "D", "a", "b", some "cat-1", none, []⟩],
         [⟨"m1", "RIMI", "cat-1"⟩]⟩ "cat-1").categories
      (deleteCategory
        ⟨[⟨"cat-1", "Food", "#f00", 0⟩, ⟨"IN", "Income", "#0f0", 0⟩],
         [⟨"t1", "2024-01-01", none, "D", "a", "b", some "cat-1", none, []⟩],
         [⟨"m1", "RIMI", "cat-1"⟩]⟩ "cat-1").mappings = true :=
  ⟨by decide, by decide,
   (claim2_delete_cascade _ "cat-1").2.1,
   (claim2_delete_cascade _ "cat-1").2.2.2.2.1 (by decide),
   (claim2_delete_cascade _ "cat-1").2.2.2.2.2 (by decide)⟩

/-- A transaction with no conflict set is exclusive. -/
lemma exclusiveB_of_conflicts_none (t : Transaction) (h : t.conflicts = none) :
    exclusiveB t = true := by
  simp [exclusiveB, h, conflictsNonempty]

/-- A transaction with no category id is exclusive. -/
lemma exclusiveB_of_categoryId_none (t : Transaction)
    (h : t.categoryId = none) : exclusiveB t = true := by
  simp [exclusiveB, h, truthyOptStr]

/-- C1: exclusivity — after import-time categorization, manual
resolution, batch recompute, or category deletion, no transaction has
both a non-empty `categoryId` and a non-empty `conflicts` set, assuming
the invariant held for the operation's input transactions (import-time
categorization starts from freshly parsed transactions, so it needs no
assumption). -/
theorem claim1_exclusivity :
    (∀ (maps : List Mapping) (ign : List String) (now : ℕ) (rows : List Row),
      ∀ tx ∈ importFlow maps ign now rows, exclusiveB tx = true) ∧
    (∀ (tx : Transaction) (newCat : String), exclusiveB tx = true →
      exclusiveB (updateCategory tx newCat) = true) ∧
    (∀ (txs : List Transaction) (maps : List Mapping) (ign : List String),
      (∀ tx ∈ txs, exclusiveB tx = true) →
      ∀ tx' ∈ (handleReapplyRules txs maps ign).1, exclusiveB tx' = true) ∧
    (∀ (s : DBState) (id : String),
      (∀ tx ∈ s.transactions, exclusiveB tx = true) →
      ∀ tx' ∈ (deleteCategory s id).transactions, exclusiveB tx' = true) := by
  refine ⟨?_, ?_, ?_, ?_⟩
  · intro maps ign now rows tx htx
    obtain ⟨t0, ht0, rfl⟩ := List.mem_map.mp htx
    rw [parseBankCSV_eq] at ht0
    obtain ⟨p, _, hout⟩ := List.mem_filterMap.mp ht0
    obtain ⟨h1, h2⟩ := rowOutTx_fresh now p t0 hout
    simp only [importCategorize]
    split_ifs <;>
      first
        | exact exclusiveB_of_categoryId_none _ h1
        | exact exclusiveB_of_conflicts_none _ h2
  · intro tx newCat h
    unfold updateCategory
    split_ifs
    · exact exclusiveB_of_conflicts_none _ rfl
    · exact h
  · intro txs maps ign h tx' htx'
    rw [handleReapplyRules, handleReapplyRules_foldl] at htx'
    simp only [List.nil_append] at htx'
    obtain ⟨t0, ht0, rfl⟩ := List.mem_map.mp htx'
    have h0 := h t0 ht0
    simp only [reapplyOne]
    split_ifs <;>
      first
        | exact h0
        | exact exclusiveB_of_conflicts_none _ rfl
        | exact exclusiveB_of_categoryId_none _ rfl
  · intro s id h tx' htx'
    obtain ⟨t0, ht0, rfl⟩ := List.mem_map.mp htx'
    have h0 := h t0 ht0
    unfold deleteCategoryTx
    split_ifs
    · exact exclusiveB_of_categoryId_none _ rfl
    · exact h0

/-- C1 witness: concrete runs of all four operations, each yielding an
exclusive transaction — an import of a credit row with no matching rule
(fallback to `IN`), a manual resolution of a conflicted transaction, a
batch recompute clearing a conflicted debit, and a category deletion
unassigning a transaction. -/
theorem claim1_witness :
    exclusiveB ⟨"T1", "2024-02-01", none, "C", "Shop", "food", some "IN",
      none, rowPairs ⟨"01.02.2024", "x", "C", "T1", "Shop", "", "food"⟩⟩ =
      true ∧
    exclusiveB (updateCategory
      ⟨"t2", "2024-01-01", none, "D", "a", "b", none, some ["x", "y"], []⟩
      "cat-9") = true ∧
    exclusiveB ⟨"t2", "2024-01-01", none, "D", "a", "b", none, none, []⟩ =
      true ∧
    exclusiveB ⟨"t3", "2024-01-01", none, "D", "a", "b", none, none, []⟩ =
      true :=
  ⟨claim1_exclusivity.1 [] [] 0 [⟨"01.02.2024", "x", "C", "T1", "Shop", "",
      "food"⟩] _ (by decide),
   claim1_exclusivity.2.1
     ⟨"t2", "2024-01-01", none, "D", "a", "b", none, some ["x", "y"], []⟩
     "cat-9" (by decide),
   claim1_exclusivity.2.2.1
     [⟨"t2", "2024-01-01", none, "D", "a", "b", none, some ["x", "y"], []⟩]
     [] [] (by decide) _ (by decide),
   claim1_exclusivity.2.2.2
     ⟨[], [⟨"t3", "2024-01-01", none, "D", "a", "b", some "c9", none, []⟩],
      []⟩ "c9" (by decide) _ (by decide)⟩

/-- C5: for a transaction matching no ignored identifier and zero
distinct mapping categories, the fallback policy is the same at import
time and during batch recompute: a Credit-type transaction gets the
reserved income category `IN`, a Debit-type transaction remains (or
becomes) unassigned.  (Import-time categorization only runs on
transactions that are still unassigned, hence its guard hypothesis.) -/
theorem claim5_fallback (maps : List Mapping) (ign : List String)
    (tx : Transaction)
    (hni : (normalizeIgnored ign).any
      (fun acc => strIncludes (relevantText tx) acc) = false)
    (hzero : collectMatches tx maps = []) :
    ((truthyOptStr tx.categoryId = false) →
      ((tx.type = "C" →
        (importCategorize maps ign tx).categoryId = some "IN") ∧
       (tx.type ≠ "C" →
        truthyOptStr (importCategorize maps ign tx).categoryId = false))) ∧
    ((tx.type = "C" → ((reapplyOne maps ign tx).1).categoryId = some "IN") ∧
     (tx.type ≠ "C" →
      truthyOptStr ((reapplyOne maps ign tx).1).categoryId = false)) := by
  have hv : applyMappings tx maps ign = ⟨none, none⟩ := by
    simp [applyMappings, hni, hzero]
  refine ⟨?_, ?_, ?_⟩
  · intro hcat
    constructor
    · intro hC
      simp_all [importCategorize, hv, truthyOptStr, truthyConflicts]
    · intro hD
      simp_all [importCategorize, hv, truthyOptStr, truthyConflicts]
  · intro hC
    by_cases hIN : tx.categoryId = some "IN" <;>
      simp [reapplyOne, hv, hC, hIN, truthyOptStr, truthyConflicts]
  · intro hD
    by_cases hcat : truthyOptStr tx.categoryId = true <;>
      by_cases hcf : truthyConflicts tx.conflicts = true <;>
        simp_all [reapplyOne, hv, hD, truthyOptStr, truthyConflicts]

/-- C5 witness: with no mappings and no ignored identifiers, a concrete
Credit transaction falls back to `IN` and a concrete Debit transaction
stays unassigned, both at import time and under batch recompute. -/
theorem claim5_witness :
    ((importCategorize [] []
        ⟨"c1", "2024-01-01", none, "C", "a", "b", none, none, []⟩).categoryId =
      some "IN" ∧
     ((reapplyOne [] []
        ⟨"c1", "2024-01-01", none, "C", "a", "b", none, none, []⟩).1).categoryId =
      some "IN") ∧
    (truthyOptStr (importCategorize [] []
        ⟨"d1", "2024-01-01", none, "D", "a", "b", none, none, []⟩).categoryId =
      false ∧
     truthyOptStr ((reapplyOne [] []
        ⟨"d1", "2024-01-01", none, "D", "a", "b", none, none, []⟩).1).categoryId =
      false) :=
  ⟨⟨((claim5_fallback [] []
        ⟨"c1", "2024-01-01", none, "C", "a", "b", none, none, []⟩
        (by decide) (by decide)).1 (by decide)).1 rfl,
    (claim5_fallback [] []
        ⟨"c1", "2024-01-01", none, "C", "a", "b", none, none, []⟩
        (by decide) (by decide)).2.1 rfl⟩,
   ⟨((claim5_fallback [] []
        ⟨"d1", "2024-01-01", none, "D", "a", "b", none, none, []⟩
        (by decide) (by decide)).1 (by decide)).2 (by decide),
    (claim5_fallback [] []
        ⟨"d1", "2024-01-01", none, "D", "a", "b", none, none, []⟩
        (by decide) (by decide)).2.2 (by decide)⟩⟩

lemma truthyOptStr_ne_none (o : Option String) (h : truthyOptStr o = true) :
    o ≠ none := by
  cases o <;> simp_all [truthyOptStr]

lemma truthyConflicts_ne_none (o : Option (List String))
    (h : truthyConflicts o = true) : o ≠ none := by
  cases o <;> simp_all [truthyConflicts]

lemma conflictsNonempty_ne_none (o : Option (List String))
    (h : conflictsNonempty o = true) : o ≠ none := by
  cases o <;> simp_all [conflictsNonempty]

/-- The `changed` flag of the recompute loop body is set exactly when
the updated transaction differs (field-by-field, conflict lists compared
in order) from the stored one. -/
lemma reapplyOne_changed_iff (maps : List Mapping) (ign : List String)
    (tx : Transaction) :
    (reapplyOne maps ign tx).2 = true ↔ (reapplyOne maps ign tx).1 ≠ tx := by
  obtain ⟨i, d, a, ty, b, p, c, cf, o⟩ := tx
  simp only [reapplyOne]
  split_ifs with h1 h2 h3 h4 h5 h6 h7
  · dsimp only
    constructor
    · intro _ heq
      simp only [Transaction.mk.injEq] at heq
      rcases h2 with hc | hcf
      · exact hc heq.2.2.2.2.2.2.1.symm
      · exact conflictsNonempty_ne_none _ hcf heq.2.2.2.2.2.2.2.1.symm
    · intro _
      rfl
  · dsimp only
    simp
  · dsimp only
    constructor
    · intro _ heq
      simp only [Transaction.mk.injEq] at heq
      rcases h4 with hc | hcf
      · exact truthyOptStr_ne_none _ hc heq.2.2.2.2.2.2.1.symm
      · exact hcf heq.2.2.2.2.2.2.2.1.symm
    · intro _
      rfl
  · dsimp only
    simp
  · dsimp only
    constructor
    · intro _ heq
      simp only [Transaction.mk.injEq] at heq
      exact h6 heq.2.2.2.2.2.2.1.symm
    · intro _
      rfl
  · dsimp only
    simp
  · dsimp only
    constructor
    · intro _ heq
      simp only [Transaction.mk.injEq] at heq
      rcases h7 with hc | hcf
      · exact truthyOptStr_ne_none _ hc heq.2.2.2.2.2.2.1.symm
      · exact truthyConflicts_ne_none _ hcf heq.2.2.2.2.2.2.2.1.symm
    · intro _
      rfl
  · dsimp only
    simp

/-- C6 counterexample: a stored transaction whose conflict list holds
the same category ids as the recomputed one but in the opposite order is
counted as changed by `handleReapplyRules`, even though its stored and
recomputed states are field-by-field equal with conflict sets compared
order-blind — refuting the claim that such a transaction is not counted. -/
theorem claim6_counterexample :
    (reapplyOne [⟨"m1", "NETFLIX", "cat-a"⟩, ⟨"m2", "FLIX", "cat-b"⟩] []
        ⟨"t1", "2024-02-01", none, "D", "X", "NETFLIX SUBSCRIPTION FLIX",
          none, some ["cat-b", "cat-a"], []⟩).2 = true ∧
    stateEqUpToConflictOrder
      ⟨"t1", "2024-02-01", none, "D", "X", "NETFLIX SUBSCRIPTION FLIX",
        none, some ["cat-b", "cat-a"], []⟩
      (reapplyOne [⟨"m1", "NETFLIX", "cat-a"⟩, ⟨"m2", "FLIX", "cat-b"⟩] []
        ⟨"t1", "2024-02-01", none, "D", "X", "NETFLIX SUBSCRIPTION FLIX",
          none, some ["cat-b", "cat-a"], []⟩).1 = true := by
  constructor
  · decide
  · decide

/-- C6 (amended): a transaction is counted toward `changeCount` if and
only if its recomputed state differs from its stored state compared
field-by-field with conflict lists compared element-wise in order —
two conflict lists holding the same category ids in different order
count as a change (the source compares them via `JSON.stringify`). -/
theorem claim6_changed_count :
    (∀ (txs : List Transaction) (maps : List Mapping) (ign : List String),
      (handleReapplyRules txs maps ign).2 =
        txs.countP (fun tx => decide ((reapplyOne maps ign tx).1 ≠ tx))) ∧
    (∀ (maps : List Mapping) (ign : List String) (tx : Transaction),
      (reapplyOne maps ign tx).2 = true ↔ (reapplyOne maps ign tx).1 ≠ tx) := by
  constructor
  · intro txs maps ign
    rw [handleReapplyRules, handleReapplyRules_foldl]
    simp only [Nat.zero_add]
    apply List.countP_congr
    intro tx _
    by_cases hp : (reapplyOne maps ign tx).1 ≠ tx
    · simp [hp, (reapplyOne_changed_iff maps ign tx).mpr hp]
    · have hb : (reapplyOne maps ign tx).2 = false := by
        cases hfl : (reapplyOne maps ign tx).2 with
        | false => rfl
        | true => exact absurd ((reapplyOne_changed_iff maps ign tx).mp hfl) hp
      simp [hp, hb]
  · exact reapplyOne_changed_iff

lemma importRulesGo_mem (cp : List String) (now : ℕ)
    (imported : List ImportedRule) :
    ∀ added m, m ∈ importRulesGo cp now added imported →
      ∃ rule ∈ imported, rule.pattern ≠ "" ∧ rule.categoryId ≠ "" ∧
        m.categoryId = rule.categoryId := by
  induction imported with
  | nil =>
    intro added m h
    cases h
  | cons rule rest ih =>
    intro added m h
    rw [importRulesGo] at h
    split at h
    · obtain ⟨r, hr, hprops⟩ := ih added m h
      exact ⟨r, List.mem_cons_of_mem rule hr, hprops⟩
    · split at h
      · obtain ⟨r, hr, hprops⟩ := ih added m h
        exact ⟨r, List.mem_cons_of_mem rule hr, hprops⟩
      · rename_i hne _
        push_neg at hne
        rcases List.mem_cons.mp h with rfl | h'
        · exact ⟨rule, List.mem_cons_self rule rest, hne.1, hne.2, rfl⟩
        · obtain ⟨r, hr, hprops⟩ := ih (added + 1) m h'
          exact ⟨r, List.mem_cons_of_mem rule hr, hprops⟩

/-- C7 counterexample: importing the single rule
`{pattern: "SHOP", categoryId: "ghost"}` into a store whose only
category is `IN` (invariant 2 holding beforehand) leaves a mapping whose
`categoryId` names no existing category — the import validates patterns
for duplication only, never category existence. -/
theorem claim7_counterexample :
    invariant2B [⟨"IN", "Income", "#22c55e", 0⟩] [] = true ∧
    invariant2B [⟨"IN", "Income", "#22c55e", 0⟩]
      (handleImportRules [] [⟨"SHOP", "ghost"⟩] 0) = false := by
  constructor
  · decide
  · decide

/-- C7 (amended): after rule import, every mapping's `categoryId` names
an existing category, provided invariant 2 held beforehand AND every
imported rule's `categoryId` is blank (those are skipped) or names an
existing category; the operation itself performs no such validation. -/
theorem claim7_import_invariant (cats : List Category) (maps : List Mapping)
    (imported : List ImportedRule) (now : ℕ)
    (h1 : invariant2B cats maps = true)
    (h2 : ∀ rule ∈ imported, rule.categoryId = "" ∨
      cats.any (fun cat => cat.id = rule.categoryId) = true) :
    invariant2B cats (handleImportRules maps imported now) = true := by
  rw [invariant2B, List.all_eq_true]
  intro m hm
  rw [handleImportRules] at hm
  rcases List.mem_append.mp hm with hold | hnew
  · rw [invariant2B] at h1
    exact List.all_eq_true.mp h1 m hold
  · obtain ⟨rule, hrule, _, hc, hcat⟩ :=
      importRulesGo_mem _ now imported 0 m hnew
    rcases h2 rule hrule with hz | hz
    · exact absurd hz hc
    · simp only [hcat]
      exact hz

/-- C7 witness: importing `{pattern: "SHOP", categoryId: "IN"}` (whose
category exists) into an empty mapping store keeps invariant 2. -/
theorem claim7_witness :
    invariant2B [⟨"IN", "Income", "#22c55e", 0⟩]
      (handleImportRules [] [⟨"SHOP", "IN"⟩] 0) = true :=
  claim7_import_invariant _ [] [⟨"SHOP", "IN"⟩] 0 (by decide) (by decide)

/-- C3: determinism — permuting the mapping list changes neither the
single matched category (`matched`) nor the conflict set (the conflict
lists contain the same category ids, compared as sets), nor an empty
result. -/
theorem claim3_determinism (tx : Transaction) (ign : List String)
    (maps₁ maps₂ : List Mapping) (h : maps₁.Perm maps₂) :
    (applyMappings tx maps₁ ign).matched =
      (applyMappings tx maps₂ ign).matched ∧
    conflictsSameElemsB (applyMappings tx maps₁ ign).conflicts
      (applyMappings tx maps₂ ign).conflicts = true := by
  have hperm := collectMatches_perm tx maps₁ maps₂ h
  have hlen := hperm.length_eq
  by_cases hint : (normalizeIgnored ign).any
      (fun acc => strIncludes (relevantText tx) acc) = true
  · simp [applyMappings, hint, conflictsSameElemsB]
  · by_cases h1 : (collectMatches tx maps₁).length = 1
    · obtain ⟨x, hx⟩ := List.length_eq_one.mp h1
      have hx2 : collectMatches tx maps₂ = [x] :=
        (List.singleton_perm.mp (hx ▸ hperm)).symm
      simp [applyMappings, hint, hx, hx2, conflictsSameElemsB]
    · by_cases hgt : (collectMatches tx maps₁).length > 1
      · have h1' : ¬(collectMatches tx maps₂).length = 1 := by
          rw [← hlen]
          exact h1
        have hgt' : (collectMatches tx maps₂).length > 1 := by
          rw [← hlen]
          exact hgt
        have e₁ : applyMappings tx maps₁ ign =
            ⟨none, some (collectMatches tx maps₁)⟩ := by
          simp only [applyMappings]
          rw [if_neg hint, if_neg h1, if_pos hgt]
        have e₂ : applyMappings tx maps₂ ign =
            ⟨none, some (collectMatches tx maps₂)⟩ := by
          simp only [applyMappings]
          rw [if_neg hint, if_neg h1', if_pos hgt']
        rw [e₁, e₂]
        refine ⟨rfl, ?_⟩
        simp only [conflictsSameElemsB, Bool.and_eq_true, List.all_eq_true]
        constructor
        · intro a ha
          exact List.elem_iff.mpr (hperm.mem_iff.mp ha)
        · intro a ha
          exact List.elem_iff.mpr (hperm.mem_iff.mpr ha)
      · have hz : collectMatches tx maps₁ = [] := by
          cases hc : collectMatches tx maps₁ with
          | nil => rfl
          | cons y ys =>
            rw [hc] at h1 hgt
            cases hys : ys with
            | nil => exact absurd (by rw [hys]; rfl) h1
            | cons z zs =>
              rw [hys] at hgt
              exact absurd (by simp) hgt
        have hz2 : collectMatches tx maps₂ = [] :=
          List.Perm.eq_nil (hz ▸ hperm).symm
        simp [applyMappings, hint, hz, hz2, conflictsSameElemsB]

/-- C3 witness: swapping two conflicting mappings leaves the matched
category unchanged and yields the same conflict set. -/
theorem claim3_witness :
    (applyMappings
        ⟨"t1", "2024-02-01", none, "D", "X", "NETFLIX SUBSCRIPTION", none,
          none, []⟩
        [⟨"m1", "NETFLIX", "cat-a"⟩, ⟨"m2", "FLIX", "cat-b"⟩] []).matched =
      (applyMappings
        ⟨"t1", "2024-02-01", none, "D", "X", "NETFLIX SUBSCRIPTION", none,
          none, []⟩
        [⟨"m2", "FLIX", "cat-b"⟩, ⟨"m1", "NETFLIX", "cat-a"⟩] []).matched ∧
    conflictsSameElemsB
      (applyMappings
        ⟨"t1", "2024-02-01", none, "D", "X", "NETFLIX SUBSCRIPTION", none,
          none, []⟩
        [⟨"m1", "NETFLIX", "cat-a"⟩, ⟨"m2", "FLIX", "cat-b"⟩] []).conflicts
      (applyMappings
        ⟨"t1", "2024-02-01", none, "D", "X", "NETFLIX SUBSCRIPTION", none,
          none, []⟩
        [⟨"m2", "FLIX", "cat-b"⟩, ⟨"m1", "NETFLIX", "cat-a"⟩] []).conflicts =
      true :=
  claim3_determinism
    ⟨"t1", "2024-02-01", none, "D", "X", "NETFLIX SUBSCRIPTION", none,
      none, []⟩ []
    [⟨"m1", "NETFLIX", "cat-a"⟩, ⟨"m2", "FLIX", "cat-b"⟩]
    [⟨"m2", "FLIX", "cat-b"⟩, ⟨"m1", "NETFLIX", "cat-a"⟩]
    (List.Perm.swap (⟨"m2", "FLIX", "cat-b"⟩ : Mapping)
      (⟨"m1", "NETFLIX", "cat-a"⟩ : Mapping) [])

/-- C8: the Normalizer processes rows independently with partial-success
semantics — the output lists are per-row `filterMap`s over the indexed
input rows (so every row is processed and output order matches input row
order); a row missing its date or amount cell is skipped, contributing
neither a transaction nor an error entry; a row whose date does not
parse under the fixed `dd.MM.yyyy` format yields exactly one error entry
and no transaction. -/
theorem claim8_row_processing :
    (∀ (now : ℕ) (rows : List Row),
      (parseBankCSV now rows).data = rows.enum.filterMap (rowOutTx now) ∧
      (parseBankCSV now rows).errors = rows.enum.filterMap (rowOutErr now)) ∧
    (∀ (now idx : ℕ) (r : Row), r.valueDate = "" ∨ r.amount = "" →
      processRow now idx r = .skip) ∧
    (∀ (now idx : ℕ) (r : Row), processRow now idx r = .skip →
      rowOutTx now (idx, r) = none ∧ rowOutErr now (idx, r) = none) ∧
    (∀ (now idx : ℕ) (r : Row), r.valueDate ≠ "" → r.amount ≠ "" →
      parseDate_ddMMyyyy r.valueDate = none →
      processRow now idx r =
        .err ⟨r, "Invalid date format: " ++ r.valueDate⟩) ∧
    (∀ (now idx : ℕ) (r : Row) (e : ParseError),
      processRow now idx r = .err e →
      rowOutTx now (idx, r) = none ∧ rowOutErr now (idx, r) = some e) := by
  refine ⟨?_, ?_, ?_, ?_, ?_⟩
  · intro now rows
    rw [parseBankCSV_eq]
    exact ⟨rfl, rfl⟩
  · intro now idx r h
    unfold processRow
    rw [if_pos h]
  · intro now idx r h
    constructor
    · simp [rowOutTx, h]
    · simp [rowOutErr, h]
  · intro now idx r h1 h2 h3
    unfold processRow
    rw [if_neg (by simp [h1, h2]), h3]
  · intro now idx r e h
    constructor
    · simp [rowOutTx, h]
    · simp [rowOutErr, h]

/-- C8 witness: a row with a missing date is silently skipped; a row
with the unparseable date `2024/02/01` produces exactly one error entry;
on the two-row input the output lists match the per-row `filterMap`
characterization. -/
theorem claim8_witness :
    ((parseBankCSV 0 [⟨"", "5.00", "D", "", "", "", ""⟩,
        ⟨"2024/02/01", "5.00", "D", "", "", "", ""⟩]).data =
      [⟨"", "5.00", "D", "", "", "", ""⟩,
        ⟨"2024/02/01", "5.00", "D", "", "", "", ""⟩].enum.filterMap
        (rowOutTx 0)) ∧
    processRow 0 0 ⟨"", "5.00", "D", "", "", "", ""⟩ = .skip ∧
    (rowOutTx 0 (0, ⟨"", "5.00", "D", "", "", "", ""⟩) = none ∧
      rowOutErr 0 (0, ⟨"", "5.00", "D", "", "", "", ""⟩) = none) ∧
    processRow 0 1 ⟨"2024/02/01", "5.00", "D", "", "", "", ""⟩ =
      .err ⟨⟨"2024/02/01", "5.00", "D", "", "", "", ""⟩,
        "Invalid date format: " ++ "2024/02/01"⟩ :=
  ⟨(claim8_row_processing.1 0 [⟨"", "5.00", "D", "", "", "", ""⟩,
      ⟨"2024/02/01", "5.00", "D", "", "", "", ""⟩]).1,
   claim8_row_processing.2.1 0 0 ⟨"", "5.00", "D", "", "", "", ""⟩
     (Or.inl rfl),
   claim8_row_processing.2.2.1 0 0 ⟨"", "5.00", "D", "", "", "", ""⟩
     (by decide),
   claim8_row_processing.2.2.2.1 0 1
     ⟨"2024/02/01", "5.00", "D", "", "", "", ""⟩ (by decide) (by decide)
     (by decide)⟩

/-- C9 counterexample: the amount cell `"-5.00"` is non-empty, yet the
produced transaction's amount is the negative number `-5` — `parseFloat`
is applied verbatim, with no magnitude/sign validation. -/
theorem claim9_counterexample :
    (parseBankCSV 0
      [⟨"01.02.2024", "-5.00", "D", "T1", "Shop", "", "x"⟩]).data.map
        Transaction.amount = [some (-5)] ∧ ¬((0 : ℚ) ≤ -5) := by
  have hfp : parseJSFloat "-5.00" = some (-5) := by
    have h : floatParts "-5.00" = some (true, 5, 0, 2, 0) := by decide
    rw [parseJSFloat, h]
    norm_num
  constructor
  · have hdata : (parseBankCSV 0
        [⟨"01.02.2024", "-5.00", "D", "T1", "Shop", "", "x"⟩]).data.map
          Transaction.amount = [parseJSFloat "-5.00"] := rfl
    rw [hdata, hfp]
  · norm_num

lemma floatParts_not_neg (s : String) (hms : ('-' : Char) ∉ s.toList)
    (p : Bool × ℕ × ℕ × ℕ × ℤ) (h : floatParts s = some p) : p.1 = false := by
  rw [floatParts] at h
  split at h
  · cases h
  · injection h with h
    rw [← h]
    cases hc : s.toList.dropWhile (fun c => c.isWhitespace) with
    | nil => rfl
    | cons c rest =>
      have hcne : c ≠ '-' := by
        intro hceq
        apply hms
        apply List.dropWhile_subset (fun c => c.isWhitespace)
        rw [hc, hceq]
        exact List.mem_cons_self _ _
      simp only [hc]
      split
      · rename_i heq
        injection heq with h1 _
        exact absurd h1 hcne
      · rfl

/-- A `parseFloat` result on text containing no minus sign is
non-negative. -/
lemma parseJSFloat_nonneg (s : String) (hms : ('-' : Char) ∉ s.toList)
    (q : ℚ) (h : parseJSFloat s = some q) : 0 ≤ q := by
  rw [parseJSFloat] at h
  cases hfp : floatParts s with
  | none =>
    rw [hfp] at h
    cases h
  | some p =>
    have hneg := floatParts_not_neg s hms p hfp
    rw [hfp] at h
    obtain ⟨neg, ipart, fpart, flen, ex⟩ := p
    simp only at hneg h
    subst hneg
    injection h with h
    rw [← h]
    have hm : (0 : ℚ) ≤ (ipart : ℚ) + (fpart : ℚ) / (10 : ℚ) ^ flen := by
      positivity
    have hz : (0 : ℚ) < (10 : ℚ) ^ ex := zpow_pos (by norm_num) ex
    simp only [Bool.false_eq_true, if_false]
    calc (0 : ℚ) ≤ ((ipart : ℚ) + (fpart : ℚ) / (10 : ℚ) ^ flen) *
        (10 : ℚ) ^ ex := mul_nonneg hm (le_of_lt hz)
    _ = 1 * ((ipart : ℚ) + (fpart : ℚ) / (10 : ℚ) ^ flen) *
        (10 : ℚ) ^ ex := by ring

/-- C9 (amended): every transaction the Normalizer produces carries as
amount exactly the `parseFloat` of its row's textual amount cell; that
amount is non-negative whenever the cell contains no minus sign, but for
arbitrary text it may be negative or `NaN` — the parser performs no
validation of its own. -/
theorem claim9_amount_parse (now : ℕ) (rows : List Row) (tx : Transaction)
    (htx : tx ∈ (parseBankCSV now rows).data) :
    ∃ r ∈ rows, tx.amount = parseJSFloat r.amount ∧
      (('-' : Char) ∉ r.amount.toList → ∀ q, tx.amount = some q → 0 ≤ q) := by
  rw [parseBankCSV_eq] at htx
  obtain ⟨p, hp, hout⟩ := List.mem_filterMap.mp htx
  have hr : p.2 ∈ rows :=
    List.getElem?_mem (List.mem_enum_iff_getElem?.mp hp)
  have hamt : tx.amount = parseJSFloat p.2.amount := by
    cases hpr : processRow now p.1 p.2 with
    | skip => simp [rowOutTx, hpr] at hout
    | err e => simp [rowOutTx, hpr] at hout
    | tx t0 =>
      simp only [rowOutTx, hpr, Option.some.injEq] at hout
      subst hout
      exact (processRow_tx_fields now p.1 p.2 t0 hpr).2.2
  refine ⟨p.2, hr, hamt, ?_⟩
  intro hms q hq
  rw [hamt] at hq
  exact parseJSFloat_nonneg p.2.amount hms q hq

/-- C9 witness: the single concrete row with amount cell `"x"` yields
one transaction whose amount is `parseFloat "x"` (`NaN`, modelled as
`none`), satisfying the amended statement. -/
theorem claim9_witness :
    ∃ r ∈ [(⟨"01.02.2024", "x", "D", "T1", "Shop", "", "p"⟩ : Row)],
      (⟨"T1", "2024-02-01", none, "D", "Shop", "p", none, none,
        rowPairs ⟨"01.02.2024", "x", "D", "T1", "Shop", "", "p"⟩⟩ :
        Transaction).amount = parseJSFloat r.amount ∧
      (('-' : Char) ∉ r.amount.toList → ∀ q,
        (⟨"T1", "2024-02-01", none, "D", "Shop", "p", none, none,
          rowPairs ⟨"01.02.2024", "x", "D", "T1", "Shop", "", "p"⟩⟩ :
          Transaction).amount = some q → 0 ≤ q) :=
  claim9_amount_parse 0 [⟨"01.02.2024", "x", "D", "T1", "Shop", "", "p"⟩]
    ⟨"T1", "2024-02-01", none, "D", "Shop", "p", none, none,
      rowPairs ⟨"01.02.2024", "x", "D", "T1", "Shop", "", "p"⟩⟩
    (by decide)
